import Mathlib

/-!
Verification of the K-Means topic model (`src/topics/kmeans_model.cpp`,
`include/meta/topics/kmeans_model.h`).

The model state consists of
  * `documents_` : a dense `num_docs × num_terms` matrix of TF-IDF weights,
  * `centroids_` : a `k × num_terms` matrix of centroid vectors,
  * `topics_`    : the assignment table, one cluster id per document.
Weights are C++ `double`s; we embed them as rationals `ℚ` and vectors as
lists indexed by `List.getD` (all container accesses in the source are
in-bounds, so the `getD` default is never the value actually read in a run
of the program).  Randomness (`std::random_device`, the uniform and
discrete distributions of `init_centroids`) is modelled by oracle
functions supplying the drawn indices.  C++ exceptions become `Except`.
-/

namespace MetaTopics

/-- Error taxonomy of the clustering core: `compute_mean` throws on an
empty cluster, `init_centroids` throws on an unknown strategy name. -/
inductive KmError where
  | EmptyCluster
  | InvalidConfiguration
deriving DecidableEq, Repr

/-- A dense weight vector (`using feature = std::vector<double>;`). -/
abbrev Feature := List ℚ

/-- Embedding of `kmeans_model::compute_distance`: the sum-of-squares
distance `Σ_{w < num_terms} (f[w] - s[w])²` between two feature vectors. -/
def compute_distance (numTerms : ℕ) (f s : Feature) : ℚ :=
  ((List.range numTerms).map
    (fun w => (f.getD w 0 - s.getD w 0) * (f.getD w 0 - s.getD w 0))).sum

/-- Scanning step of `std::min_element`: keep the current best pair
(index, value), replace it only when a later element is strictly
smaller.  `i` is the index of the head of the remaining list. -/
def min_element_aux : List ℚ → ℕ → ℕ × ℚ → ℕ × ℚ
  | [], _, best => best
  | d :: rest, i, best =>
      min_element_aux rest (i + 1) (if d < best.2 then (i, d) else best)

/-- Embedding of the `std::min_element` call in `find_nearest_cluster`:
returns the index of the first minimum together with the minimum value.
The empty case is unreachable in the source (`cluster_limit ≥ 1`). -/
def min_element : List ℚ → ℕ × ℚ
  | [] => (0, 0)
  | d :: rest => min_element_aux rest 1 (0, d)

/-- Embedding of the two-argument `kmeans_model::find_nearest_cluster`:
distances from `f` to the first `clusterLimit` centroids, then the first
minimum (index and value). -/
def find_nearest_cluster (numTerms : ℕ) (centroids : List Feature)
    (f : Feature) (clusterLimit : ℕ) : ℕ × ℚ :=
  min_element ((List.range clusterLimit).map
    (fun c => compute_distance numTerms f (centroids.getD c [])))

/-- Embedding of `kmeans_model::assign_document`: find the nearest of all
`k` centroids; if it differs from the current assignment, update the
table and report a change. -/
def assign_document (numTerms k : ℕ) (centroids documents : List Feature)
    (topics : List ℕ) (d : ℕ) : List ℕ × Bool :=
  let p := find_nearest_cluster numTerms centroids (documents.getD d []) k
  if p.1 = topics.getD d 0 then (topics, false) else (topics.set d p.1, true)

/-- Body of the assignment loop in `kmeans_model::run`: assign one
document and bump the change counter when the assignment changed. -/
def assign_fold_step (numTerms k : ℕ) (centroids documents : List Feature)
    (st : List ℕ × ℕ) (d : ℕ) : List ℕ × ℕ :=
  let r := assign_document numTerms k centroids documents st.1 d
  (r.1, if r.2 then st.2 + 1 else st.2)

/-- One Assignment Step: the loop over all documents in `kmeans_model::run`
that calls `assign_document` and counts the changed assignments. -/
def assignment_step (numTerms k numDocs : ℕ)
    (centroids documents : List Feature) (topics : List ℕ) : List ℕ × ℕ :=
  (List.range numDocs).foldl (assign_fold_step numTerms k centroids documents)
    (topics, 0)

/-- The members of cluster `t`: the multimap built at the top of
`kmeans_model::update_centroids` groups documents by assigned topic, and
`equal_range` yields the documents of `t` in increasing document order. -/
def cluster_members (numDocs : ℕ) (topics : List ℕ) (t : ℕ) : List ℕ :=
  (List.range numDocs).filter (fun d => topics.getD d 0 = t)

/-- Embedding of `kmeans_model::compute_mean`: throws on an empty cluster,
otherwise accumulates each coordinate over the member documents and
divides by the member count. -/
def compute_mean (numTerms : ℕ) (documents : List Feature) :
    List ℕ → Except KmError Feature
  | [] => .error .EmptyCluster
  | d :: ds => .ok ((List.range numTerms).map
      (fun w => ((d :: ds).map (fun i => (documents.getD i []).getD w 0)).sum
                  / ((d :: ds).length : ℚ)))

/-- The per-cluster loop of `kmeans_model::update_centroids`, over the
list of cluster ids: the first empty cluster aborts with `EmptyCluster`. -/
def update_centroids_loop (numTerms : ℕ) (documents : List Feature)
    (members : ℕ → List ℕ) : List ℕ → Except KmError (List Feature)
  | [] => .ok []
  | t :: ts =>
    match compute_mean numTerms documents (members t) with
    | .error e => .error e
    | .ok m =>
      match update_centroids_loop numTerms documents members ts with
      | .error e => .error e
      | .ok ms => .ok (m :: ms)

/-- Embedding of `kmeans_model::update_centroids`: recompute every
centroid in `[0, k)` as the mean of its members. -/
def update_centroids (numTerms numDocs k : ℕ) (documents : List Feature)
    (topics : List ℕ) : Except KmError (List Feature) :=
  update_centroids_loop numTerms documents (cluster_members numDocs topics)
    (List.range k)

/-- The iteration loop of `kmeans_model::run`: at most `numIters`
iterations of {Assignment Step; Update Step}, breaking once an Assignment
Step reports zero changed documents.  On success it returns the final
centroids, the final assignment table, and the list of per-iteration
change counts (one entry per executed iteration, in order). -/
def run_loop (numTerms numDocs k : ℕ) (documents : List Feature) :
    List Feature → List ℕ → ℕ → Except KmError (List Feature × List ℕ × List ℕ)
  | centroids, topics, 0 => .ok (centroids, topics, [])
  | centroids, topics, n + 1 =>
    let a := assignment_step numTerms k numDocs centroids documents topics
    match update_centroids numTerms numDocs k documents a.1 with
    | .error e => .error e
    | .ok cs =>
      if a.2 = 0 then .ok (cs, a.1, [a.2])
      else
        match run_loop numTerms numDocs k documents cs a.1 n with
        | .error e => .error e
        | .ok r => .ok (r.1, r.2.1, a.2 :: r.2.2)

/-- Modelled from the spec: the Assignment Table "starts in an
undefined/default state" of size `num_docs`; the constructor's
`topics_.resize(num_docs_)` (in `src`) value-initializes each `topic_id`
entry, and `topic_id` is a numeric-identifier wrapper over `uint64_t`
generated by `MAKE_NUMERIC_IDENTIFIER`, whose definition (a defaulted
default constructor, hence value-initialization yields zero) lives in a
library header that is not under `src/`.  The default state is therefore
every document assigned to cluster `0`. -/
def init_topics (numDocs : ℕ) : List ℕ :=
  List.replicate numDocs 0

/-- The cluster id chosen for document `d` by the single-argument
`find_nearest_cluster` overload used in `assign_document` (search over
all `k` centroids). -/
def nearest_cluster (numTerms k : ℕ) (centroids documents : List Feature)
    (d : ℕ) : ℕ :=
  (find_nearest_cluster numTerms centroids (documents.getD d []) k).1

/-- The payload produced by `compute_mean` on a non-empty member list:
each coordinate is the member sum divided by the member count. -/
def mean_vec (numTerms : ℕ) (documents : List Feature) (ids : List ℕ) :
    Feature :=
  (List.range numTerms).map
    (fun w => (ids.map (fun i => (documents.getD i []).getD w 0)).sum
                / (ids.length : ℚ))

/-- The kmeans++ seeding loop of `kmeans_model::init_centroids`: for each
slot `count` in `[1, k)`, compute each document's squared distance to its
nearest already-chosen centroid, then let the weighted-draw oracle pick a
document from that distribution and copy its vector into slot `count`.
Recursion is on the number of remaining slots. -/
def kmeanspp_loop (numTerms numDocs : ℕ) (documents : List Feature)
    (wdraw : List ℚ → ℕ) : List Feature → ℕ → ℕ → List Feature
  | centroids, _, 0 => centroids
  | centroids, count, rem + 1 =>
    let weights := (List.range numDocs).map
      (fun d => (find_nearest_cluster numTerms centroids
                   (documents.getD d []) count).2)
    let d := wdraw weights
    kmeanspp_loop numTerms numDocs documents wdraw
      (centroids.set count (documents.getD d [])) (count + 1) rem

/-- Embedding of `kmeans_model::init_centroids`.  `udraw t` models the
uniform draw used for slot `t` (`randk` draws once per slot; kmeans++
draws once for the first centroid), `wdraw` models the draw from the
discrete distribution over the given weights.  An unknown strategy name
throws (`"invalid initalization method"`, the InvalidConfiguration case). -/
def init_centroids (numTerms numDocs k : ℕ) (documents : List Feature)
    (method : String) (udraw : ℕ → ℕ) (wdraw : List ℚ → ℕ) :
    Except KmError (List Feature) :=
  if method = "kmeans++" then
    let centroids0 := (List.replicate k (List.replicate numTerms (0 : ℚ))).set 0
      (documents.getD (udraw 0) [])
    .ok (kmeanspp_loop numTerms numDocs documents wdraw centroids0 1 (k - 1))
  else if method = "randk" then
    .ok ((List.range k).map (fun t => documents.getD (udraw t) []))
  else .error .InvalidConfiguration

/-- Embedding of `kmeans_model::run` up to its state changes: centroid
initialization followed by the iteration loop, starting from the
constructor's all-zero assignment table.  (Logging, `print_topics` and
persistence do not affect the clustering state.) -/
def run (numTerms numDocs k : ℕ) (documents : List Feature)
    (method : String) (udraw : ℕ → ℕ) (wdraw : List ℚ → ℕ) (numIters : ℕ) :
    Except KmError (List Feature × List ℕ × List ℕ) :=
  match init_centroids numTerms numDocs k documents method udraw wdraw with
  | .error e => .error e
  | .ok centroids =>
    run_loop numTerms numDocs k documents centroids (init_topics numDocs) numIters

/-- Strict lexicographic order on `(weight, term)` pairs, mirroring
`operator<` of `std::pair<double, term_id>`. -/
def pair_lt (a b : ℚ × ℕ) : Bool :=
  a.1 < b.1 || (a.1 = b.1 && a.2 < b.2)

/-- Top of the `std::priority_queue` (max-heap): the lexicographically
largest `(weight, term)` pair of the queue contents. -/
def pq_top : List (ℚ × ℕ) → ℚ × ℕ
  | [] => (0, 0)
  | p :: rest => if pair_lt p (pq_top rest) then pq_top rest else p

/-- Removal of one occurrence of `x` from the queue contents (`pq.pop()`
on the top element). -/
def pq_remove (x : ℚ × ℕ) : List (ℚ × ℕ) → List (ℚ × ℕ)
  | [] => []
  | p :: rest => if p = x then rest else p :: pq_remove x rest

/-- The inner output loop of `kmeans_model::print_topics`: pop up to `n`
pairs off the queue (stopping early when it empties), returning the
popped pairs in order and the remaining queue contents. -/
def pop_many : ℕ → List (ℚ × ℕ) → List (ℚ × ℕ) × List (ℚ × ℕ)
  | 0, pq => ([], pq)
  | _ + 1, [] => ([], [])
  | n + 1, p :: rest =>
    let t := pq_top (p :: rest)
    let r := pop_many n (pq_remove t (p :: rest))
    (t :: r.1, r.2)

/-- Embedding of `kmeans_model::print_topics`: the priority queue is
declared once, outside the per-topic loop; for each topic all
`numTerms` `(weight, term)` pairs of its centroid are pushed and then at
most `numOutput` pairs are popped and printed.  The result is the list of
printed `(weight, term)` lines per topic (term text resolution via the
inverted index is external).  Note the queue contents remaining after one
topic are still in the queue when the next topic is processed. -/
def print_topics (numTerms k : ℕ) (centroids : List Feature)
    (numOutput : ℕ) : List (List (ℚ × ℕ)) :=
  ((List.range k).foldl
    (fun st t =>
      let pq := st.1 ++ (List.range numTerms).map
        (fun w => ((centroids.getD t []).getD w 0, w))
      let r := pop_many numOutput pq
      (r.2, st.2 ++ [r.1]))
    ([], [])).2

/-- Modelled from the spec: the Top-terms report ranks, for each cluster
independently, all terms by that cluster's own centroid weight in
descending order and reports the top `numOutput` terms with their
weights (a fresh selection per cluster). -/
def spec_top_terms (numTerms k : ℕ) (centroids : List Feature)
    (numOutput : ℕ) : List (List (ℚ × ℕ)) :=
  (List.range k).map
    (fun t => (pop_many numOutput ((List.range numTerms).map
      (fun w => ((centroids.getD t []).getD w 0, w)))).1)

/-! ### Generic list access lemmas -/

lemma getD_map_range {α : Type} (dflt : α) (f : ℕ → α) {m c : ℕ}
    (h : c < m) : ((List.range m).map f).getD c dflt = f c := by
  rw [List.getD_eq_getElem?_getD, List.getElem?_map, List.getElem?_range h]
  rfl

lemma getD_set_self {α : Type} (dflt : α) (l : List α) (i : ℕ) (v : α)
    (h : i < l.length) : (l.set i v).getD i dflt = v := by
  rw [List.getD_eq_getElem?_getD, List.getElem?_set_self h]
  rfl

lemma getD_set_ne {α : Type} (dflt : α) (l : List α) {i j : ℕ} (v : α)
    (h : i ≠ j) : (l.set i v).getD j dflt = l.getD j dflt := by
  rw [List.getD_eq_getElem?_getD, List.getElem?_set_ne h,
    ← List.getD_eq_getElem?_getD]

lemma getD_replicate_zero (n d : ℕ) :
    (List.replicate n (0 : ℕ)).getD d 0 = 0 := by
  induction n generalizing d with
  | zero => rfl
  | succ m ih =>
    cases d with
    | zero => rfl
    | succ d2 =>
      rw [List.replicate_succ, List.getD_cons_succ]
      exact ih d2

/-! ### Characterization of the `std::min_element` scan -/

lemma min_element_aux_spec (l : List ℚ) : ∀ (i : ℕ) (b : ℕ × ℚ),
    (min_element_aux l i b = b ∧ ∀ j, j < l.length → b.2 ≤ l.getD j 0) ∨
    (∃ j, j < l.length ∧ min_element_aux l i b = (i + j, l.getD j 0) ∧
      l.getD j 0 < b.2 ∧ (∀ j2, j2 < j → l.getD j 0 < l.getD j2 0) ∧
      (∀ j2, j2 < l.length → l.getD j 0 ≤ l.getD j2 0)) := by
  induction l with
  | nil =>
    intro i b
    left
    exact ⟨rfl, fun j hj => absurd hj (Nat.not_lt_zero j)⟩
  | cons d rest ih =>
    intro i b
    simp only [min_element_aux]
    by_cases hd : d < b.2
    · rw [if_pos hd]
      rcases ih (i + 1) (i, d) with ⟨heq, hall⟩ | ⟨j, hj, heq, hlt, hstrict, hle⟩
      · have hall2 : ∀ j, j < rest.length → d ≤ rest.getD j 0 := hall
        right
        refine ⟨0, Nat.succ_pos _, ?_, ?_, ?_, ?_⟩
        · rw [heq, List.getD_cons_zero]
          simp
        · rw [List.getD_cons_zero]; exact hd
        · intro j2 hj2; exact absurd hj2 (Nat.not_lt_zero j2)
        · intro j2 hj2
          rw [List.getD_cons_zero]
          cases j2 with
          | zero => rw [List.getD_cons_zero]
          | succ j3 =>
            rw [List.getD_cons_succ]
            exact hall2 j3 (Nat.lt_of_succ_lt_succ hj2)
      · have hlt2 : rest.getD j 0 < d := hlt
        right
        refine ⟨j + 1, Nat.succ_lt_succ hj, ?_, ?_, ?_, ?_⟩
        · rw [heq, List.getD_cons_succ]
          congr 1
          omega
        · rw [List.getD_cons_succ]
          exact lt_trans hlt2 hd
        · intro j2 hj2
          rw [List.getD_cons_succ]
          cases j2 with
          | zero => rw [List.getD_cons_zero]; exact hlt2
          | succ j3 =>
            rw [List.getD_cons_succ]
            exact hstrict j3 (Nat.lt_of_succ_lt_succ hj2)
        · intro j2 hj2
          rw [List.getD_cons_succ]
          cases j2 with
          | zero => rw [List.getD_cons_zero]; exact le_of_lt hlt2
          | succ j3 =>
            rw [List.getD_cons_succ]
            exact hle j3 (Nat.lt_of_succ_lt_succ hj2)
    · rw [if_neg hd]
      push_neg at hd
      rcases ih (i + 1) b with ⟨heq, hall⟩ | ⟨j, hj, heq, hlt, hstrict, hle⟩
      · left
        refine ⟨heq, ?_⟩
        intro j hj
        cases j with
        | zero => rw [List.getD_cons_zero]; exact hd
        | succ j3 =>
          rw [List.getD_cons_succ]
          exact hall j3 (Nat.lt_of_succ_lt_succ hj)
      · right
        refine ⟨j + 1, Nat.succ_lt_succ hj, ?_, ?_, ?_, ?_⟩
        · rw [heq, List.getD_cons_succ]
          congr 1
          omega
        · rw [List.getD_cons_succ]; exact hlt
        · intro j2 hj2
          rw [List.getD_cons_succ]
          cases j2 with
          | zero => rw [List.getD_cons_zero]; exact lt_of_lt_of_le hlt hd
          | succ j3 =>
            rw [List.getD_cons_succ]
            exact hstrict j3 (Nat.lt_of_succ_lt_succ hj2)
        · intro j2 hj2
          rw [List.getD_cons_succ]
          cases j2 with
          | zero => rw [List.getD_cons_zero]; exact le_of_lt (lt_of_lt_of_le hlt hd)
          | succ j3 =>
            rw [List.getD_cons_succ]
            exact hle j3 (Nat.lt_of_succ_lt_succ hj2)

/-- Full specification of `min_element` on a non-empty list: the returned
index is in range, the returned value lives at that index, it is a global
minimum, and every strictly earlier element is strictly larger (the first
minimum wins). -/
lemma min_element_spec (l : List ℚ) (hl : l ≠ []) :
    (min_element l).1 < l.length ∧
    l.getD (min_element l).1 0 = (min_element l).2 ∧
    (∀ c, c < l.length → (min_element l).2 ≤ l.getD c 0) ∧
    (∀ j, j < (min_element l).1 → (min_element l).2 < l.getD j 0) := by
  cases l with
  | nil => exact absurd rfl hl
  | cons d rest =>
    show (min_element_aux rest 1 (0, d)).1 < rest.length + 1 ∧ _
    rcases min_element_aux_spec rest 1 (0, d) with ⟨heq, hall⟩ |
      ⟨j, hj, heq, hlt, hstrict, hle⟩
    · rw [min_element, heq]
      refine ⟨Nat.succ_pos _, List.getD_cons_zero, ?_, ?_⟩
      · intro c hc
        cases c with
        | zero => rw [List.getD_cons_zero]
        | succ c2 =>
          rw [List.getD_cons_succ]
          exact hall c2 (Nat.lt_of_succ_lt_succ hc)
      · intro j2 hj2
        exact absurd hj2 (Nat.not_lt_zero j2)
    · rw [min_element, heq]
      have hidx : 1 + j = j + 1 := by omega
      refine ⟨by omega, ?_, ?_, ?_⟩
      · rw [hidx, List.getD_cons_succ]
      · intro c hc
        cases c with
        | zero => rw [List.getD_cons_zero]; exact le_of_lt hlt
        | succ c2 =>
          rw [List.getD_cons_succ]
          exact hle c2 (Nat.lt_of_succ_lt_succ hc)
      · intro j2 hj2
        simp only at hj2
        rw [hidx] at hj2
        cases j2 with
        | zero => rw [List.getD_cons_zero]; exact hlt
        | succ j3 =>
          rw [List.getD_cons_succ]
          exact hstrict j3 (Nat.lt_of_succ_lt_succ hj2)

/-- The distance list scanned by `find_nearest_cluster`. -/
lemma find_nearest_eq_min_element (numTerms m : ℕ)
    (centroids : List Feature) (f : Feature) :
    find_nearest_cluster numTerms centroids f m =
      min_element ((List.range m).map
        (fun c => compute_distance numTerms f (centroids.getD c []))) := rfl

/-- The index returned by `find_nearest_cluster` is below the cluster
limit whenever the limit is positive. -/
lemma find_nearest_lt (numTerms m : ℕ) (centroids : List Feature)
    (f : Feature) (hm : 1 ≤ m) :
    (find_nearest_cluster numTerms centroids f m).1 < m := by
  have hlen : ((List.range m).map
      (fun c => compute_distance numTerms f (centroids.getD c []))).length = m := by
    rw [List.length_map, List.length_range]
  have hne : ((List.range m).map
      (fun c => compute_distance numTerms f (centroids.getD c []))) ≠ [] := by
    intro hcon
    rw [hcon] at hlen
    simp at hlen
    omega
  have h := (min_element_spec _ hne).1
  rw [hlen] at h
  exact h

/-! ### Assignment Step lemmas -/

section AssignmentLemmas

variable (numTerms k : ℕ) (centroids documents : List Feature)

lemma assign_document_eq (topics : List ℕ) (d : ℕ) :
    assign_document numTerms k centroids documents topics d =
      if nearest_cluster numTerms k centroids documents d = topics.getD d 0
      then (topics, false)
      else (topics.set d (nearest_cluster numTerms k centroids documents d),
            true) := rfl

lemma assign_fold_step_fst_length (st : List ℕ × ℕ) (d : ℕ) :
    (assign_fold_step numTerms k centroids documents st d).1.length
      = st.1.length := by
  simp only [assign_fold_step, assign_document_eq]
  by_cases h : nearest_cluster numTerms k centroids documents d
      = st.1.getD d 0
  · rw [if_pos h]
  · rw [if_neg h]
    exact List.length_set st.1 d _

lemma assign_fold_step_fst_getD_ne (st : List ℕ × ℕ) {a d : ℕ} (hne : a ≠ d) :
    (assign_fold_step numTerms k centroids documents st a).1.getD d 0
      = st.1.getD d 0 := by
  simp only [assign_fold_step, assign_document_eq]
  by_cases h : nearest_cluster numTerms k centroids documents a
      = st.1.getD a 0
  · rw [if_pos h]
  · rw [if_neg h]
    exact getD_set_ne 0 st.1 _ hne

lemma assign_fold_step_fst_getD_self (st : List ℕ × ℕ) (a : ℕ)
    (ha : a < st.1.length) :
    (assign_fold_step numTerms k centroids documents st a).1.getD a 0
      = nearest_cluster numTerms k centroids documents a := by
  simp only [assign_fold_step, assign_document_eq]
  by_cases h : nearest_cluster numTerms k centroids documents a
      = st.1.getD a 0
  · rw [if_pos h]
    exact h.symm
  · rw [if_neg h]
    exact getD_set_self 0 st.1 a _ ha

lemma assign_fold_step_fixed (topics : List ℕ) (c a : ℕ)
    (h : topics.getD a 0 = nearest_cluster numTerms k centroids documents a) :
    assign_fold_step numTerms k centroids documents (topics, c) a
      = (topics, c) := by
  simp only [assign_fold_step, assign_document_eq]
  rw [if_pos h.symm]
  simp

lemma afold_fst_length : ∀ (ds : List ℕ) (st : List ℕ × ℕ),
    ((ds.foldl (assign_fold_step numTerms k centroids documents) st).1).length
      = st.1.length := by
  intro ds
  induction ds with
  | nil => intro st; rfl
  | cons a rest ih =>
    intro st
    rw [List.foldl_cons, ih, assign_fold_step_fst_length]

lemma afold_fst_getD_not_mem : ∀ (ds : List ℕ) (st : List ℕ × ℕ) (d : ℕ),
    d ∉ ds →
    (ds.foldl (assign_fold_step numTerms k centroids documents) st).1.getD d 0
      = st.1.getD d 0 := by
  intro ds
  induction ds with
  | nil => intro st d _; rfl
  | cons a rest ih =>
    intro st d hd
    rw [List.foldl_cons, ih _ d (fun hmem => hd (List.mem_cons_of_mem a hmem)),
      assign_fold_step_fst_getD_ne]
    intro had
    exact hd (had ▸ List.mem_cons_self a rest)

lemma afold_fst_getD_mem : ∀ (ds : List ℕ) (st : List ℕ × ℕ) (d : ℕ),
    d ∈ ds → d < st.1.length →
    (ds.foldl (assign_fold_step numTerms k centroids documents) st).1.getD d 0
      = nearest_cluster numTerms k centroids documents d := by
  intro ds
  induction ds with
  | nil => intro st d hd; exact absurd hd (List.not_mem_nil d)
  | cons a rest ih =>
    intro st d hd hlen
    rw [List.foldl_cons]
    by_cases hr : d ∈ rest
    · refine ih _ d hr ?_
      rw [assign_fold_step_fst_length]
      exact hlen
    · have had : d = a := by
        rcases List.mem_cons.mp hd with h | h
        · exact h
        · exact absurd h hr
      subst had
      rw [afold_fst_getD_not_mem numTerms k centroids documents rest _ d hr,
        assign_fold_step_fst_getD_self numTerms k centroids documents _ _ hlen]

lemma afold_nochange : ∀ (ds : List ℕ) (topics : List ℕ) (c : ℕ),
    (∀ d ∈ ds, topics.getD d 0
        = nearest_cluster numTerms k centroids documents d) →
    ds.foldl (assign_fold_step numTerms k centroids documents) (topics, c)
      = (topics, c) := by
  intro ds
  induction ds with
  | nil => intro topics c _; rfl
  | cons a rest ih =>
    intro topics c h
    rw [List.foldl_cons,
      assign_fold_step_fixed _ _ _ _ _ _ _ (h a (List.mem_cons_self a rest))]
    exact ih topics c (fun d hd => h d (List.mem_cons_of_mem a hd))

lemma assignment_step_fst_length (numDocs : ℕ) (topics : List ℕ) :
    (assignment_step numTerms k numDocs centroids documents topics).1.length
      = topics.length :=
  afold_fst_length numTerms k centroids documents (List.range numDocs)
    (topics, 0)

lemma assignment_step_fst_getD (numDocs : ℕ) (topics : List ℕ) (d : ℕ)
    (hd : d < numDocs) (hlen : d < topics.length) :
    (assignment_step numTerms k numDocs centroids documents topics).1.getD d 0
      = nearest_cluster numTerms k centroids documents d :=
  afold_fst_getD_mem numTerms k centroids documents (List.range numDocs)
    (topics, 0) d (List.mem_range.mpr hd) hlen

lemma assignment_step_fixed (numDocs : ℕ) (topics : List ℕ)
    (h : ∀ d, d < numDocs → topics.getD d 0
        = nearest_cluster numTerms k centroids documents d) :
    assignment_step numTerms k numDocs centroids documents topics
      = (topics, 0) :=
  afold_nochange numTerms k centroids documents (List.range numDocs) topics 0
    (fun d hd => h d (List.mem_range.mp hd))

end AssignmentLemmas

/-! ### Update Step lemmas -/

lemma compute_mean_ok (numTerms : ℕ) (documents : List Feature)
    (ids : List ℕ) (h : ids ≠ []) :
    compute_mean numTerms documents ids
      = .ok (mean_vec numTerms documents ids) := by
  cases ids with
  | nil => exact absurd rfl h
  | cons d ds => rfl

lemma update_loop_ok (numTerms : ℕ) (documents : List Feature)
    (members : ℕ → List ℕ) : ∀ (ts : List ℕ),
    (∀ t ∈ ts, members t ≠ []) →
    update_centroids_loop numTerms documents members ts
      = .ok (ts.map (fun t => mean_vec numTerms documents (members t))) := by
  intro ts
  induction ts with
  | nil => intro _; rfl
  | cons t rest ih =>
    intro h
    simp only [update_centroids_loop,
      compute_mean_ok numTerms documents (members t)
        (h t (List.mem_cons_self t rest)),
      ih (fun t2 ht2 => h t2 (List.mem_cons_of_mem t ht2)), List.map_cons]

lemma update_loop_error_of_exists (numTerms : ℕ) (documents : List Feature)
    (members : ℕ → List ℕ) : ∀ (ts : List ℕ),
    (∃ t ∈ ts, members t = []) →
    update_centroids_loop numTerms documents members ts
      = .error .EmptyCluster := by
  intro ts
  induction ts with
  | nil =>
    intro h
    obtain ⟨t, ht, _⟩ := h
    exact absurd ht (List.not_mem_nil t)
  | cons t rest ih =>
    intro h
    by_cases hm : members t = []
    · simp only [update_centroids_loop, hm, compute_mean]
    · obtain ⟨t2, ht2, hm2⟩ := h
      have ht2r : t2 ∈ rest := by
        rcases List.mem_cons.mp ht2 with he | hr
        · exact absurd (he ▸ hm2) hm
        · exact hr
      simp only [update_centroids_loop,
        compute_mean_ok numTerms documents (members t) hm,
        ih ⟨t2, ht2r, hm2⟩]

lemma update_loop_error_iff (numTerms : ℕ) (documents : List Feature)
    (members : ℕ → List ℕ) (ts : List ℕ) (e : KmError) :
    update_centroids_loop numTerms documents members ts = .error e ↔
      e = .EmptyCluster ∧ ∃ t ∈ ts, members t = [] := by
  constructor
  · intro h
    have hex : ∃ t ∈ ts, members t = [] := by
      by_contra hc
      push_neg at hc
      rw [update_loop_ok numTerms documents members ts hc] at h
      exact Except.noConfusion h
    have h2 := update_loop_error_of_exists numTerms documents members ts hex
    rw [h2] at h
    exact ⟨(Except.error.inj h).symm, hex⟩
  · intro ⟨he, hex⟩
    rw [he]
    exact update_loop_error_of_exists numTerms documents members ts hex

lemma update_centroids_ok (numTerms numDocs k : ℕ)
    (documents : List Feature) (topics : List ℕ)
    (h : ∀ t, t < k → cluster_members numDocs topics t ≠ []) :
    update_centroids numTerms numDocs k documents topics
      = .ok ((List.range k).map
          (fun t => mean_vec numTerms documents
            (cluster_members numDocs topics t))) :=
  update_loop_ok numTerms documents (cluster_members numDocs topics)
    (List.range k) (fun t ht => h t (List.mem_range.mp ht))

lemma update_centroids_error_iff (numTerms numDocs k : ℕ)
    (documents : List Feature) (topics : List ℕ) (e : KmError) :
    update_centroids numTerms numDocs k documents topics = .error e ↔
      e = .EmptyCluster ∧
        ∃ t, t < k ∧ cluster_members numDocs topics t = [] := by
  rw [update_centroids, update_loop_error_iff]
  constructor
  · intro ⟨he, t, ht, hm⟩
    exact ⟨he, t, List.mem_range.mp ht, hm⟩
  · intro ⟨he, t, ht, hm⟩
    exact ⟨he, t, List.mem_range.mpr ht, hm⟩

/-! ### Pigeonhole for empty clusters -/

lemma exists_unused_cluster (l : List ℕ) (k : ℕ) (h : l.length < k) :
    ∃ t, t < k ∧ t ∉ l := by
  by_contra hc
  push_neg at hc
  have hsub : Finset.range k ⊆ l.toFinset := fun t ht =>
    List.mem_toFinset.mpr (hc t (Finset.mem_range.mp ht))
  have h1 := Finset.card_le_card hsub
  rw [Finset.card_range] at h1
  have h2 := l.toFinset_card_le
  omega

lemma cluster_members_eq_nil (numDocs : ℕ) (topics : List ℕ) (t : ℕ)
    (h : ∀ d, d < numDocs → topics.getD d 0 ≠ t) :
    cluster_members numDocs topics t = [] := by
  simp only [cluster_members, List.filter_eq_nil_iff, decide_eq_true_eq]
  intro d hd
  exact h d (List.mem_range.mp hd)

/-- With strictly more clusters than documents, some cluster in `[0, k)`
is unused by any assignment table of length `numDocs`, so the Update Step
fails with `EmptyCluster`. -/
lemma update_centroids_error_of_small (numTerms numDocs k : ℕ)
    (documents : List Feature) (topics : List ℕ) (hk : numDocs < k) :
    update_centroids numTerms numDocs k documents topics
      = .error .EmptyCluster := by
  obtain ⟨t, htk, htmem⟩ := exists_unused_cluster
    ((List.range numDocs).map (fun d => topics.getD d 0)) k
    (by rw [List.length_map, List.length_range]; exact hk)
  refine (update_centroids_error_iff numTerms numDocs k documents topics
    .EmptyCluster).mpr ⟨rfl, t, htk, ?_⟩
  refine cluster_members_eq_nil numDocs topics t (fun d hd hc => ?_)
  exact htmem (List.mem_map.mpr ⟨d, List.mem_range.mpr hd, hc⟩)

/-! ### Iteration loop lemmas -/

/-- Per-iteration change counts reported by a successful `run_loop`: there
is one count per executed iteration, at most `n` of them; a zero count
can only be the last one (the loop breaks there); an early stop means the
last count was zero; and if no count is zero the budget was exhausted. -/
lemma run_loop_changes_spec (numTerms numDocs k : ℕ)
    (documents : List Feature) : ∀ (n : ℕ) (centroids : List Feature)
    (topics : List ℕ) (c : List Feature) (t chs : List ℕ),
    run_loop numTerms numDocs k documents centroids topics n
      = .ok (c, t, chs) →
    chs.length ≤ n ∧
    (∀ i, i + 1 < chs.length → chs.getD i 1 ≠ 0) ∧
    (chs.length < n → chs.getLast? = some 0) ∧
    (0 ∉ chs → chs.length = n) := by
  intro n
  induction n with
  | zero =>
    intro centroids topics c t chs h
    simp only [run_loop, Except.ok.injEq, Prod.mk.injEq] at h
    obtain ⟨_, _, hchs⟩ := h
    subst hchs
    refine ⟨Nat.le_refl 0, ?_, ?_, ?_⟩
    · intro i hi
      exact absurd hi (by simp)
    · intro hlt
      exact absurd hlt (by simp)
    · intro _
      rfl
  | succ m ih =>
    intro centroids topics c t chs h
    simp only [run_loop] at h
    cases hupd : update_centroids numTerms numDocs k documents
        (assignment_step numTerms k numDocs centroids documents topics).1 with
    | error e =>
      rw [hupd] at h
      exact Except.noConfusion h
    | ok cs =>
      rw [hupd] at h
      dsimp only at h
      by_cases hzero :
          (assignment_step numTerms k numDocs centroids documents topics).2 = 0
      · rw [if_pos hzero] at h
        simp only [Except.ok.injEq, Prod.mk.injEq] at h
        obtain ⟨_, _, hchs⟩ := h
        subst hchs
        refine ⟨by simp, ?_, ?_, ?_⟩
        · intro i hi
          simp at hi
        · intro _
          rw [hzero]
          rfl
        · intro hnot
          rw [hzero] at hnot
          exact absurd (List.mem_singleton_self 0) hnot
      · rw [if_neg hzero] at h
        cases hrec : run_loop numTerms numDocs k documents cs
            (assignment_step numTerms k numDocs centroids documents topics).1
            m with
        | error e =>
          rw [hrec] at h
          exact Except.noConfusion h
        | ok r =>
          rw [hrec] at h
          simp only [Except.ok.injEq, Prod.mk.injEq] at h
          obtain ⟨_, _, hchs⟩ := h
          subst hchs
          obtain ⟨ih1, ih2, ih3, ih4⟩ := ih cs
            (assignment_step numTerms k numDocs centroids documents topics).1
            r.1 r.2.1 r.2.2 hrec
          refine ⟨by simp; omega, ?_, ?_, ?_⟩
          · intro i hi
            cases i with
            | zero =>
              rw [List.getD_cons_zero]
              exact hzero
            | succ i2 =>
              rw [List.getD_cons_succ]
              refine ih2 i2 ?_
              simp at hi
              omega
          · intro hlt
            simp only [List.length_cons] at hlt
            have hlt2 : r.2.2.length < m := by omega
            cases hr22 : r.2.2 with
            | nil =>
              have h0 : r.2.2.length = m := ih4 (by rw [hr22]; simp)
              rw [hr22] at h0
              simp at h0
              omega
            | cons b l =>
              rw [List.getLast?_cons_cons]
              rw [hr22] at ih3
              exact ih3 (hr22 ▸ hlt2)
          · intro hnot
            simp only [List.mem_cons, not_or] at hnot
            have h4 := ih4 hnot.2
            simp only [List.length_cons, h4]

lemma nearest_cluster_lt (numTerms k : ℕ) (centroids documents : List Feature)
    (d : ℕ) (hk : 1 ≤ k) :
    nearest_cluster numTerms k centroids documents d < k :=
  find_nearest_lt numTerms k centroids _ hk

/-- When the iteration's Update Step throws, the loop aborts with that
error (no further iteration runs). -/
lemma run_loop_error_of_update (numTerms numDocs k : ℕ)
    (documents centroids : List Feature) (topics : List ℕ) (n : ℕ)
    (e : KmError)
    (h : update_centroids numTerms numDocs k documents
      (assignment_step numTerms k numDocs centroids documents topics).1
        = .error e) :
    run_loop numTerms numDocs k documents centroids topics (n + 1)
      = .error e := by
  simp only [run_loop]
  rw [h]

/-- If the first Assignment Step changes nothing, the loop stops after the
first iteration: any positive budget gives the same result as budget 1. -/
lemma run_loop_converged_first (numTerms numDocs k : ℕ)
    (documents centroids : List Feature) (topics : List ℕ)
    (hfix : assignment_step numTerms k numDocs centroids documents topics
      = (topics, 0)) :
    ∀ n, 1 ≤ n →
    run_loop numTerms numDocs k documents centroids topics n
      = run_loop numTerms numDocs k documents centroids topics 1 := by
  intro n hn
  cases n with
  | zero => omega
  | succ m =>
    simp only [run_loop, hfix]
    cases hupd : update_centroids numTerms numDocs k documents topics with
    | error e => rfl
    | ok cs => rfl

/-- The assignment-table invariant (size `numDocs`, values in `[0, k)`) is
carried through the iteration loop to its final table. -/
lemma run_loop_table_inv (numTerms numDocs k : ℕ) (documents : List Feature)
    (hk : 1 ≤ k) : ∀ (n : ℕ) (centroids : List Feature) (topics : List ℕ)
    (c : List Feature) (t chs : List ℕ),
    topics.length = numDocs →
    (∀ d, d < numDocs → topics.getD d 0 < k) →
    run_loop numTerms numDocs k documents centroids topics n
      = .ok (c, t, chs) →
    t.length = numDocs ∧ ∀ d, d < numDocs → t.getD d 0 < k := by
  intro n
  induction n with
  | zero =>
    intro centroids topics c t chs hlen hval h
    simp only [run_loop, Except.ok.injEq, Prod.mk.injEq] at h
    obtain ⟨_, ht, _⟩ := h
    subst ht
    exact ⟨hlen, hval⟩
  | succ m ih =>
    intro centroids topics c t chs hlen hval h
    have hlen1 :
        (assignment_step numTerms k numDocs centroids documents topics).1.length
          = numDocs := by
      rw [assignment_step_fst_length]
      exact hlen
    have hval1 : ∀ d, d < numDocs →
        (assignment_step numTerms k numDocs centroids documents
          topics).1.getD d 0 < k := by
      intro d hd
      rw [assignment_step_fst_getD numTerms k centroids documents numDocs
        topics d hd (hlen ▸ hd)]
      exact nearest_cluster_lt numTerms k centroids documents d hk
    simp only [run_loop] at h
    cases hupd : update_centroids numTerms numDocs k documents
        (assignment_step numTerms k numDocs centroids documents topics).1 with
    | error e =>
      rw [hupd] at h
      exact Except.noConfusion h
    | ok cs =>
      rw [hupd] at h
      dsimp only at h
      by_cases hzero :
          (assignment_step numTerms k numDocs centroids documents topics).2 = 0
      · rw [if_pos hzero] at h
        simp only [Except.ok.injEq, Prod.mk.injEq] at h
        obtain ⟨_, ht, _⟩ := h
        subst ht
        exact ⟨hlen1, hval1⟩
      · rw [if_neg hzero] at h
        cases hrec : run_loop numTerms numDocs k documents cs
            (assignment_step numTerms k numDocs centroids documents topics).1
            m with
        | error e =>
          rw [hrec] at h
          exact Except.noConfusion h
        | ok r =>
          rw [hrec] at h
          simp only [Except.ok.injEq, Prod.mk.injEq] at h
          obtain ⟨_, ht, _⟩ := h
          subst ht
          exact ih cs _ r.1 r.2.1 r.2.2 hlen1 hval1 hrec

/-! ### Claim theorems -/

/-- C1: after an Update Step in which every cluster identifier in `[0, k)`
has at least one assigned document, the step succeeds and every cluster's
new Centroid Vector equals the element-wise arithmetic mean of the
Document Vectors of the documents assigned to it (stated multiplicatively:
centroid coordinate times member count equals the member coordinate sum). -/
theorem claim1_update_centroids_mean (numTerms numDocs k : ℕ)
    (documents : List Feature) (topics : List ℕ)
    (h : ∀ t, t < k → cluster_members numDocs topics t ≠ []) :
    ∃ cs, update_centroids numTerms numDocs k documents topics = .ok cs ∧
      cs.length = k ∧
      ∀ t, t < k → ∀ w, w < numTerms →
        (cs.getD t []).getD w 0
            * ((cluster_members numDocs topics t).length : ℚ)
          = ((cluster_members numDocs topics t).map
              (fun d => (documents.getD d []).getD w 0)).sum := by
  refine ⟨_, update_centroids_ok numTerms numDocs k documents topics h,
    ?_, ?_⟩
  · rw [List.length_map, List.length_range]
  · intro t ht w hw
    rw [getD_map_range [] _ ht, mean_vec, getD_map_range 0 _ hw]
    refine div_mul_cancel₀ _ ?_
    exact Nat.cast_ne_zero.mpr (List.length_pos.mpr (h t ht)).ne'

/-- Witness for C1: the 2-document, 2-term case with documents `[1,0]`,
`[0,1]` assigned to clusters 0 and 1. -/
theorem claim1_witness :
    (∀ t, t < 2 → cluster_members 2 [0, 1] t ≠ []) ∧
    ∃ cs, update_centroids 2 2 2 [[1, 0], [0, 1]] [0, 1] = .ok cs ∧
      cs.length = 2 ∧
      ∀ t, t < 2 → ∀ w, w < 2 →
        (cs.getD t []).getD w 0 * ((cluster_members 2 [0, 1] t).length : ℚ)
          = ((cluster_members 2 [0, 1] t).map
              (fun d => (([[1, 0], [0, 1]] : List Feature).getD d []).getD
                w 0)).sum :=
  ⟨by decide,
    claim1_update_centroids_mean 2 2 2 [[1, 0], [0, 1]] [0, 1] (by decide)⟩

/-- C2: for every document vector `v` and centroid count `m` with
`1 ≤ m ≤ k`, Nearest-Centroid Search returns a pair whose distance is the
minimum sum-of-squares distance of `v` to the first `m` centroids and
whose index is the lowest centroid index achieving that minimum (ties
broken by lowest index: every strictly earlier centroid is strictly
farther). -/
theorem claim2_find_nearest_cluster (numTerms m : ℕ)
    (centroids : List Feature) (v : Feature)
    (h1 : 1 ≤ m) (h2 : m ≤ centroids.length) :
    (find_nearest_cluster numTerms centroids v m).1 < m ∧
    compute_distance numTerms v
        (centroids.getD (find_nearest_cluster numTerms centroids v m).1 [])
      = (find_nearest_cluster numTerms centroids v m).2 ∧
    (∀ c, c < m → (find_nearest_cluster numTerms centroids v m).2
        ≤ compute_distance numTerms v (centroids.getD c [])) ∧
    (∀ j, j < (find_nearest_cluster numTerms centroids v m).1 →
      (find_nearest_cluster numTerms centroids v m).2
        < compute_distance numTerms v (centroids.getD j [])) := by
  have hlen : ((List.range m).map
      (fun c => compute_distance numTerms v (centroids.getD c []))).length
        = m := by
    rw [List.length_map, List.length_range]
  have hne : ((List.range m).map
      (fun c => compute_distance numTerms v (centroids.getD c []))) ≠ [] := by
    intro hc
    rw [hc] at hlen
    simp at hlen
    omega
  obtain ⟨s1, s2, s3, s4⟩ := min_element_spec _ hne
  rw [hlen] at s1
  rw [find_nearest_eq_min_element numTerms m centroids v]
  refine ⟨s1, ?_, ?_, ?_⟩
  · rw [← s2, getD_map_range 0 _ s1]
  · intro c hc
    have h3 := s3 c (by rw [hlen]; exact hc)
    rw [getD_map_range 0 _ hc] at h3
    exact h3
  · intro j hj
    have hjm : j < m := lt_trans hj s1
    have h4 := s4 j hj
    rw [getD_map_range 0 _ hjm] at h4
    exact h4

/-- Witness for C2: two centroids `[1,0]` and `[0,1]`, query vector
`[0,1]`; the nearest index is in range and its distance is attained. -/
theorem claim2_witness :
    1 ≤ 2 ∧ 2 ≤ ([[1, 0], [0, 1]] : List Feature).length ∧
    (find_nearest_cluster 2 [[1, 0], [0, 1]] [0, 1] 2).1 < 2 ∧
    compute_distance 2 [0, 1]
        (([[1, 0], [0, 1]] : List Feature).getD
          (find_nearest_cluster 2 [[1, 0], [0, 1]] [0, 1] 2).1 [])
      = (find_nearest_cluster 2 [[1, 0], [0, 1]] [0, 1] 2).2 :=
  ⟨by decide, by decide,
    (claim2_find_nearest_cluster 2 2 [[1, 0], [0, 1]] [0, 1]
      (by decide) (by decide)).1,
    (claim2_find_nearest_cluster 2 2 [[1, 0], [0, 1]] [0, 1]
      (by decide) (by decide)).2.1⟩

/-- C4: the Update Step fails with `EmptyCluster` if and only if some
cluster identifier in `[0, k)` has zero assigned documents; EmptyCluster
is the only error it can produce, and when the Update Step of an
iteration fails the loop aborts with that error (no new centroids, no
reseeding, no further iterations). -/
theorem claim4_empty_cluster (numTerms numDocs k : ℕ)
    (documents : List Feature) (topics : List ℕ) :
    (update_centroids numTerms numDocs k documents topics
        = .error .EmptyCluster ↔
      ∃ t, t < k ∧ cluster_members numDocs topics t = []) ∧
    (∀ e, update_centroids numTerms numDocs k documents topics = .error e →
      e = .EmptyCluster) ∧
    (∀ e centroids n,
      update_centroids numTerms numDocs k documents
        (assignment_step numTerms k numDocs centroids documents topics).1
          = .error e →
      run_loop numTerms numDocs k documents centroids topics (n + 1)
        = .error e) := by
  refine ⟨?_, ?_, ?_⟩
  · rw [update_centroids_error_iff]
    constructor
    · intro ⟨_, hex⟩
      exact hex
    · intro hex
      exact ⟨rfl, hex⟩
  · intro e he
    exact ((update_centroids_error_iff numTerms numDocs k documents topics
      e).mp he).1
  · intro e centroids n hupd
    exact run_loop_error_of_update numTerms numDocs k documents centroids
      topics n e hupd

/-- Witness for C4: one document assigned to cluster 0 while k = 2, so
cluster 1 is empty and the Update Step throws. -/
theorem claim4_witness :
    update_centroids 1 1 2 [[1]] [0] = .error .EmptyCluster :=
  (claim4_empty_cluster 1 1 2 [[1]] [0]).1.mpr ⟨1, by decide, by decide⟩

/-- C5: centroid initialization with a strategy name other than `"randk"`
or `"kmeans++"` fails with `InvalidConfiguration`, and no centroids are
produced (no default strategy is substituted). -/
theorem claim5_invalid_strategy (numTerms numDocs k : ℕ)
    (documents : List Feature) (method : String)
    (udraw : ℕ → ℕ) (wdraw : List ℚ → ℕ)
    (h1 : method ≠ "randk") (h2 : method ≠ "kmeans++") :
    init_centroids numTerms numDocs k documents method udraw wdraw
      = .error .InvalidConfiguration ∧
    ∀ cs, init_centroids numTerms numDocs k documents method udraw wdraw
      ≠ .ok cs := by
  have he : init_centroids numTerms numDocs k documents method udraw wdraw
      = .error .InvalidConfiguration := by
    rw [init_centroids, if_neg h2, if_neg h1]
  refine ⟨he, fun cs hc => ?_⟩
  rw [he] at hc
  exact Except.noConfusion hc

/-- Witness for C5: the unknown strategy name `"foo"`. -/
theorem claim5_witness :
    init_centroids 1 1 1 [[1]] "foo" (fun _ => 0) (fun _ => 0)
      = .error .InvalidConfiguration :=
  (claim5_invalid_strategy 1 1 1 [[1]] "foo" (fun _ => 0) (fun _ => 0)
    (by decide) (by decide)).1

/-- C8: the Assignment Step is idempotent given unchanged centroids:
running it again immediately after a run (with no Update Step in between)
returns the same Assignment Table and reports zero changed assignments. -/
theorem claim8_assignment_idempotent (numTerms k numDocs : ℕ)
    (centroids documents : List Feature) (topics : List ℕ)
    (hlen : topics.length = numDocs) :
    assignment_step numTerms k numDocs centroids documents
        (assignment_step numTerms k numDocs centroids documents topics).1
      = ((assignment_step numTerms k numDocs centroids documents topics).1,
          0) := by
  refine assignment_step_fixed numTerms k centroids documents numDocs _ ?_
  intro d hd
  exact assignment_step_fst_getD numTerms k centroids documents numDocs
    topics d hd (hlen ▸ hd)

/-- Witness for C8: the 4-document, 2-centroid scenario of the spec. -/
theorem claim8_witness :
    assignment_step 2 2 4 [[1, 0], [0, 1]] [[1, 0], [0, 1], [1, 0], [0, 1]]
        (assignment_step 2 2 4 [[1, 0], [0, 1]]
          [[1, 0], [0, 1], [1, 0], [0, 1]] [0, 0, 0, 0]).1
      = ((assignment_step 2 2 4 [[1, 0], [0, 1]]
          [[1, 0], [0, 1], [1, 0], [0, 1]] [0, 0, 0, 0]).1, 0) :=
  claim8_assignment_idempotent 2 2 4 [[1, 0], [0, 1]]
    [[1, 0], [0, 1], [1, 0], [0, 1]] [0, 0, 0, 0] (by decide)

/-- C3: a successful run executes at most `n` iterations of
{Assignment Step; Update Step}; a zero-change report can only come from
the last executed iteration (the loop stops as soon as an Assignment Step
reports zero changed documents); stopping before the budget is exhausted
means the last Assignment Step reported zero changes; and when no
Assignment Step ever reports zero changes, exactly `n` iterations run. -/
theorem claim3_run_iterations (numTerms numDocs k n : ℕ)
    (documents centroids : List Feature) (topics : List ℕ)
    (c : List Feature) (t chs : List ℕ)
    (h : run_loop numTerms numDocs k documents centroids topics n
      = .ok (c, t, chs)) :
    chs.length ≤ n ∧
    (∀ i, i + 1 < chs.length → chs.getD i 1 ≠ 0) ∧
    (chs.length < n → chs.getLast? = some 0) ∧
    (0 ∉ chs → chs.length = n) :=
  run_loop_changes_spec numTerms numDocs k documents n centroids topics
    c t chs h

/-- Witness for C3: a single document with its own vector as centroid
converges in the first iteration (change list `[0]`). -/
theorem claim3_witness :
    ([0] : List ℕ).length ≤ 1 ∧
    (([0] : List ℕ).length < 1 → ([0] : List ℕ).getLast? = some 0) := by
  have h1 : assignment_step 1 1 1 [[0]] [[1]] [0] = ([0], 0) := by
    norm_num [assignment_step, assign_fold_step, assign_document,
      find_nearest_cluster, min_element, min_element_aux, compute_distance,
      List.range_succ]
  have h2 : update_centroids 1 1 1 [[1]] [0] = .ok [[1]] := by
    norm_num [update_centroids, update_centroids_loop, compute_mean,
      cluster_members, List.range_succ]
  have hEval : run_loop 1 1 1 [[1]] [[0]] [0] 1 = .ok ([[1]], [0], [0]) := by
    show run_loop 1 1 1 [[1]] [[0]] [0] (0 + 1) = .ok ([[1]], [0], [0])
    simp [run_loop, h1, h2]
  obtain ⟨s1, _, s3, _⟩ := claim3_run_iterations 1 1 1 1 [[1]] [[0]] [0]
    [[1]] [0] [0] hEval
  exact ⟨s1, s3⟩

/-- Counterexample to C6 as stated: with num_docs = 1 and k = 2 (k outside
[1, num_docs]), `randk` initialization succeeds — no InvalidConfiguration
error is surfaced at initialization — and the run fails only later, inside
the first Update Step, with EmptyCluster rather than
InvalidConfiguration. -/
theorem claim6_counterexample :
    init_centroids 1 1 2 [[1]] "randk" (fun _ => 0) (fun _ => 0)
      = .ok [[1], [1]] ∧
    run 1 1 2 [[1]] "randk" (fun _ => 0) (fun _ => 0) 3
      = .error .EmptyCluster ∧
    KmError.EmptyCluster ≠ KmError.InvalidConfiguration := by
  have hinit : init_centroids 1 1 2 [[1]] "randk" (fun _ => 0) (fun _ => 0)
      = .ok [[1], [1]] := by
    rw [init_centroids, if_neg (by decide), if_pos rfl]
    rfl
  refine ⟨hinit, ?_, by decide⟩
  simp only [run, hinit]
  exact run_loop_error_of_update 1 1 2 [[1]] [[1], [1]] (init_topics 1) 2
    .EmptyCluster
    (update_centroids_error_of_small 1 1 2 [[1]] _ (by omega))

/-- C6 amended: the code performs no k-validation at initialization.
When k > num_docs, `randk` initialization succeeds (no
InvalidConfiguration is raised), and the run fails instead with an
EmptyCluster error thrown by the first Update Step, after the first
Assignment Step has already run. -/
theorem claim6_amended_no_validation (numTerms numDocs k n : ℕ)
    (documents : List Feature) (udraw : ℕ → ℕ) (wdraw : List ℚ → ℕ)
    (hkd : numDocs < k) (hn : 1 ≤ n) :
    (∃ cs, init_centroids numTerms numDocs k documents "randk" udraw wdraw
        = .ok cs) ∧
    run numTerms numDocs k documents "randk" udraw wdraw n
      = .error .EmptyCluster := by
  have hinit : init_centroids numTerms numDocs k documents "randk" udraw
      wdraw = .ok ((List.range k).map (fun t => documents.getD (udraw t) []))
      := by
    rw [init_centroids, if_neg (by decide), if_pos rfl]
  refine ⟨⟨_, hinit⟩, ?_⟩
  simp only [run, hinit]
  cases n with
  | zero => omega
  | succ m =>
    exact run_loop_error_of_update numTerms numDocs k documents _ _ m
      .EmptyCluster
      (update_centroids_error_of_small numTerms numDocs k documents _ hkd)

/-- Witness for the amended C6: one document, two clusters, budget 1. -/
theorem claim6_witness :
    (∃ cs, init_centroids 1 1 2 [[1]] "randk" (fun _ => 0) (fun _ => 0)
        = .ok cs) ∧
    run 1 1 2 [[1]] "randk" (fun _ => 0) (fun _ => 0) 1
      = .error .EmptyCluster :=
  claim6_amended_no_validation 1 1 2 1 [[1]] (fun _ => 0) (fun _ => 0)
    (by decide) (by decide)

/-- C7, evaluated at a failing input: `print_topics` keeps a single
priority queue alive across topics, so with 2 clusters over 2 terms,
centroids `[1, 4/5]` and `[3/10, 1/10]`, and 1 requested output term per
cluster, the second cluster's reported top term is the leftover pair
(4/5, term 1) from cluster 0's heap rather than cluster 1's own best term
(3/10, term 0); this differs from the per-cluster ranking
`spec_top_terms` that the claim describes.  On a single cluster the
claim's scenario does hold: ranking `[1/2, 9/10, 1/10]` with 3 output
terms yields b(9/10), a(1/2), c(1/10). -/
theorem claim7_print_topics_leftover :
    print_topics 3 1 [[1/2, 9/10, 1/10]] 3
      = [[(9/10, 1), (1/2, 0), (1/10, 2)]] ∧
    print_topics 2 2 [[1, 4/5], [3/10, 1/10]] 1
      = [[(1, 0)], [(4/5, 1)]] ∧
    spec_top_terms 2 2 [[1, 4/5], [3/10, 1/10]] 1
      = [[(1, 0)], [(3/10, 0)]] ∧
    print_topics 2 2 [[1, 4/5], [3/10, 1/10]] 1
      ≠ spec_top_terms 2 2 [[1, 4/5], [3/10, 1/10]] 1 := by
  refine ⟨?_, ?_, ?_, ?_⟩ <;>
    norm_num [print_topics, spec_top_terms, pop_many, pq_top, pq_remove,
      pair_lt, List.range_succ]

/-- C9: every Assignment Step preserves the Assignment Table shape (one
entry per document identifier in [0, num_docs), each value in [0, k)),
and every completed run — converged or budget-exhausted — ends with a
table of exactly `numDocs` entries whose values all lie in `[0, k)`. -/
theorem claim9_table_invariant (numTerms numDocs k n : ℕ)
    (documents : List Feature) (method : String) (udraw : ℕ → ℕ)
    (wdraw : List ℚ → ℕ) (hk : 1 ≤ k) :
    (∀ centroids (topics : List ℕ), topics.length = numDocs →
      (assignment_step numTerms k numDocs centroids documents
          topics).1.length = numDocs ∧
        ∀ d, d < numDocs →
          (assignment_step numTerms k numDocs centroids documents
            topics).1.getD d 0 < k) ∧
    (∀ c t chs, run numTerms numDocs k documents method udraw wdraw n
        = .ok (c, t, chs) →
      t.length = numDocs ∧ ∀ d, d < numDocs → t.getD d 0 < k) := by
  constructor
  · intro centroids topics hlen
    constructor
    · rw [assignment_step_fst_length]
      exact hlen
    · intro d hd
      rw [assignment_step_fst_getD numTerms k centroids documents numDocs
        topics d hd (hlen ▸ hd)]
      exact nearest_cluster_lt numTerms k centroids documents d hk
  · intro c t chs h
    simp only [run] at h
    cases hinit : init_centroids numTerms numDocs k documents method udraw
        wdraw with
    | error e =>
      rw [hinit] at h
      exact Except.noConfusion h
    | ok centroids =>
      rw [hinit] at h
      refine run_loop_table_inv numTerms numDocs k documents hk n centroids
        (init_topics numDocs) c t chs ?_ ?_ h
      · exact List.length_replicate numDocs 0
      · intro d hd
        rw [init_topics, getD_replicate_zero]
        omega

/-- Witness for C9: a one-document, one-cluster assignment step yields a
table of length 1. -/
theorem claim9_witness :
    (assignment_step 1 1 1 [[0]] [[1]] [0]).1.length = 1 :=
  ((claim9_table_invariant 1 1 1 1 [[1]] "randk" (fun _ => 0) (fun _ => 0)
    (by decide)).1 [[0]] [0] (by decide)).1

/-- C10: the Assignment Table starts with every document assigned to
cluster 0; in the first Assignment Step a document whose nearest centroid
is cluster 0 is not counted as changed; and when every document's nearest
centroid is cluster 0, the first Assignment Step reports zero changes and
the run stops after that single iteration (every positive iteration
budget gives the same outcome as budget 1). -/
theorem claim10_zero_init (numTerms numDocs k : ℕ)
    (centroids documents : List Feature)
    (hall : ∀ d, d < numDocs →
      nearest_cluster numTerms k centroids documents d = 0) :
    (∀ d, (init_topics numDocs).getD d 0 = 0) ∧
    (∀ d, d < numDocs →
      assign_document numTerms k centroids documents (init_topics numDocs) d
        = (init_topics numDocs, false)) ∧
    assignment_step numTerms k numDocs centroids documents
        (init_topics numDocs) = (init_topics numDocs, 0) ∧
    ∀ n, 1 ≤ n →
      run_loop numTerms numDocs k documents centroids (init_topics numDocs) n
        = run_loop numTerms numDocs k documents centroids
            (init_topics numDocs) 1 := by
  have hfix : ∀ d, d < numDocs → (init_topics numDocs).getD d 0
      = nearest_cluster numTerms k centroids documents d := by
    intro d hd
    rw [init_topics, getD_replicate_zero, hall d hd]
  have hstep : assignment_step numTerms k numDocs centroids documents
      (init_topics numDocs) = (init_topics numDocs, 0) :=
    assignment_step_fixed numTerms k centroids documents numDocs _ hfix
  refine ⟨?_, ?_, hstep, ?_⟩
  · intro d
    rw [init_topics, getD_replicate_zero]
  · intro d hd
    rw [assign_document_eq, if_pos (hfix d hd).symm]
  · exact run_loop_converged_first numTerms numDocs k documents centroids _
      hstep

/-- Witness for C10: one document, one cluster; any budget behaves like
budget 1 and the first step reports zero changes. -/
theorem claim10_witness :
    run_loop 1 1 1 [[1]] [[0]] (init_topics 1) 5
      = run_loop 1 1 1 [[1]] [[0]] (init_topics 1) 1 ∧
    assignment_step 1 1 1 [[0]] [[1]] (init_topics 1)
      = (init_topics 1, 0) :=
  ⟨(claim10_zero_init 1 1 1 [[0]] [[1]] (by decide)).2.2.2 5 (by decide),
   (claim10_zero_init 1 1 1 [[0]] [[1]] (by decide)).2.2.1⟩

end MetaTopics
